import Mathlib

/-!
Shallow embedding of the trading-bot core of this repository
(`src/utils/helpers.py`, `src/Core/risk_manager.py`, `src/Core/trailing_engine.py`,
`src/Core/order_engine.py`, `src/Core/pyramid_engine.py`, `src/Core/hedge_engine.py`,
`src/Core/reentry_engine.py`).

Numbers are modelled as exact rationals.  Python's
`Decimal(str(x)).quantize(Decimal(str(tick)), ROUND_DOWN)` with the default
tick sizes `0.01` and `0.001` truncates toward zero at two, respectively
three, decimal places; `ratTrunc` is that truncation.  Gateway (Bybit REST)
calls are modelled by explicit response parameters (`Option` order ids and
success booleans), and the stateful engines by explicit state passing.
Fallible Python arithmetic (division that can raise `ZeroDivisionError`)
is modelled with `Except`.
-/

/-- Truncation of a rational toward zero (Python `Decimal` `ROUND_DOWN`). -/
def ratTrunc (q : ℚ) : ℤ := if 0 ≤ q.num then q.num / q.den else -((-q.num) / q.den)

/-- `round_price` from `src/utils/helpers.py`: truncate a price down to the
default tick size `0.01` (two decimal places, toward zero). -/
def round_price (price : ℚ) : ℚ := (ratTrunc (price * 100) : ℚ) / 100

/-- `round_quantity` from `src/utils/helpers.py`: truncate a quantity down to
the default step size `0.001` (three decimal places, toward zero). -/
def round_quantity (quantity : ℚ) : ℚ := (ratTrunc (quantity * 1000) : ℚ) / 1000

/-- Order side; the Python code carries sides as the strings `"BUY"`/`"SELL"`
(normalised with `.upper()`). -/
inductive Side | buy | sell
deriving DecidableEq

/-- The opposite side (`"SELL" if main_side.upper() == "BUY" else "BUY"`). -/
def Side.opposite : Side → Side
  | Side.buy => Side.sell
  | Side.sell => Side.buy

/-- `calculate_position_size` from `src/utils/helpers.py` (lines 19-48):
risk-based position sizing.  `leverage` is a Python `int`. -/
def calculate_position_size (balance risk_percent entry_price stop_loss : ℚ)
    (leverage : ℤ) : ℚ :=
  let risk_amount := balance * (risk_percent / 100)
  let price_difference := |entry_price - stop_loss|
  if price_difference = 0 then 0
  else
    let position_size := (risk_amount * entry_price) / price_difference
    let leveraged_size := position_size * (leverage : ℚ)
    round_quantity leveraged_size

/-- `RiskManager.calculate_position_size` from `src/Core/risk_manager.py`
(lines 60-101): delegates to the helper, then caps the result at
`self.max_position_size` (`Config.MAX_POSITION_SIZE`, default 1000).
`max_position_size` is the first argument. -/
def risk_calculate_position_size (max_position_size balance entry_price stop_loss
    risk_percent : ℚ) (leverage : ℤ) : ℚ :=
  let position_size :=
    calculate_position_size balance risk_percent entry_price stop_loss leverage
  if max_position_size < position_size then max_position_size else position_size

/-- `calculate_trailing_stop` from `src/utils/helpers.py` (lines 132-152). -/
def calculate_trailing_stop (entry_price current_price : ℚ) (side : Side)
    (trail_percent : ℚ) : ℚ :=
  let trail_amount := current_price * (trail_percent / 100)
  match side with
  | Side.buy =>
    let stop_price := current_price - trail_amount
    if entry_price < stop_price then round_price stop_price else round_price entry_price
  | Side.sell =>
    let stop_price := current_price + trail_amount
    if stop_price < entry_price then round_price stop_price else round_price entry_price

/-- The per-symbol entry of `TrailingEngine.trailing_positions`
(`src/Core/trailing_engine.py`). -/
structure TrailState where
  side : Side
  entryPrice : ℚ
  trailPercent : ℚ
  highestPrice : ℚ
  lowestPrice : ℚ
  currentStop : ℚ
  trailingActive : Bool
  profitLocked : ℚ

/-- `TrailingEngine.enable_trailing` (lines 20-50): the freshly stored
trailing record for a symbol. -/
def enable_trailing (side : Side) (entry_price trail_percent : ℚ) : TrailState :=
  { side := side
    entryPrice := entry_price
    trailPercent := trail_percent
    highestPrice := entry_price
    lowestPrice := entry_price
    currentStop := entry_price
    trailingActive := false
    profitLocked := 0 }

/-- `TrailingEngine.update_trailing_stop` (lines 58-134): returns the updated
record together with the new stop price when one was committed (Python
returns the new stop, or `None`).  The Python `profit_locked` assignment
divides by the entry price; entry price zero would raise in Python, here the
total rational division is used (the claims about `profit_locked` assume a
positive entry price). -/
def update_trailing_stop (s : TrailState) (current_price : ℚ) :
    TrailState × Option ℚ :=
  match s.side with
  | Side.buy =>
    if s.highestPrice < current_price then
      let s1 := { s with highestPrice := current_price }
      let new_stop :=
        calculate_trailing_stop s.entryPrice current_price Side.buy s.trailPercent
      if s.currentStop < new_stop then
        ({ s1 with currentStop := new_stop
                   trailingActive := true
                   profitLocked := (new_stop - s.entryPrice) / s.entryPrice * 100 },
         some new_stop)
      else (s1, none)
    else (s, none)
  | Side.sell =>
    if current_price < s.lowestPrice then
      let s1 := { s with lowestPrice := current_price }
      let new_stop :=
        calculate_trailing_stop s.entryPrice current_price Side.sell s.trailPercent
      if new_stop < s.currentStop then
        ({ s1 with currentStop := new_stop
                   trailingActive := true
                   profitLocked := (s.entryPrice - new_stop) / s.entryPrice * 100 },
         some new_stop)
      else (s1, none)
    else (s, none)

/-- `TrailingEngine.check_trailing_trigger` (lines 136-163); `none` models a
symbol that has no trailing record. -/
def check_trailing_trigger (s : Option TrailState) (current_price : ℚ) : Bool :=
  match s with
  | none => false
  | some t =>
    if t.trailingActive = false then false
    else
      match t.side with
      | Side.buy => if current_price ≤ t.currentStop then true else false
      | Side.sell => if t.currentStop ≤ current_price then true else false

/-- Iterate `update_trailing_stop` over a list of observed prices. -/
def run_updates (s : TrailState) : List ℚ → TrailState
  | [] => s
  | p :: ps => run_updates (update_trailing_stop s p).1 ps

/-- The committed stop after each price observation (including the initial
stop), i.e. the trace of `current_stop` over a price sequence. -/
def stop_trace (s : TrailState) : List ℚ → List ℚ
  | [] => [s.currentStop]
  | p :: ps => s.currentStop :: stop_trace (update_trailing_stop s p).1 ps

/-- Invariant of a trailing record relating the committed stop to the entry
price (used to settle the trailing-stop claims). -/
def TrailInv (side : Side) (entry : ℚ) (s : TrailState) : Prop :=
  s.side = side ∧ s.entryPrice = entry ∧
  (side = Side.buy → entry ≤ s.currentStop) ∧
  (side = Side.sell → s.currentStop ≤ entry) ∧
  (s.trailingActive = true →
    (side = Side.buy → entry < s.currentStop) ∧
    (side = Side.sell → s.currentStop < entry) ∧
    0 < s.profitLocked)

/-- An externally visible gateway action performed by an engine. -/
inductive OrderAction
  | place (side : Side) (price quantity : ℚ)
  | cancel (order_id : String)
deriving DecidableEq

/-- The order-tracking state of `OrderEngine` for one symbol
(`self.pending_orders[symbol]` and `self.limit_orders[symbol]`,
`src/Core/order_engine.py` lines 16-18). -/
structure OrderTrack where
  pendingOrders : Option (List String)
  limitOrders : Option (List (ℚ × String))

/-- Python `dict` insertion with overwrite, for the price-keyed
`limit_orders` mapping. -/
def dictInsert (m : List (ℚ × String)) (k : ℚ) (v : String) : List (ℚ × String) :=
  match m with
  | [] => [(k, v)]
  | (k1, v1) :: rest =>
    if k1 = k then (k, v) :: rest else (k1, v1) :: dictInsert rest k v

/-- The second-leg price of `OrderEngine.execute_dual_limit`
(lines 48-53): 0.2 percent better than the entry, truncated to the tick. -/
def secondLegPrice (side : Side) (entry_price : ℚ) : ℚ :=
  match side with
  | Side.buy => round_price (entry_price * (1 - 1/500))
  | Side.sell => round_price (entry_price * (1 + 1/500))

/-- Result of a dual-limit execution: final tracking state, the returned
success flag, and the gateway actions issued (in order). -/
structure DualLimitResult where
  state : OrderTrack
  success : Bool
  actions : List OrderAction

/-- `OrderEngine.execute_dual_limit` (lines 20-104).  `resp1` and `resp2`
are the gateway replies (`orderId`, or `none` for failure) to the first and
second `place_order` call; the second call only happens when the first
succeeded. -/
def execute_dual_limit (st : OrderTrack) (side : Side) (entry_price quantity : ℚ)
    (resp1 resp2 : Option String) : DualLimitResult :=
  let qty_per_order := round_quantity (quantity / 2)
  let second_price := secondLegPrice side entry_price
  match resp1 with
  | none =>
    { state := st, success := false
      actions := [OrderAction.place side entry_price qty_per_order] }
  | some o1 =>
    match resp2 with
    | none =>
      { state := st, success := false
        actions := [OrderAction.place side entry_price qty_per_order,
                    OrderAction.place side second_price qty_per_order,
                    OrderAction.cancel o1] }
    | some o2 =>
      { state := { pendingOrders := some [o1, o2]
                   limitOrders :=
                     some (dictInsert (dictInsert [] entry_price o1) second_price o2) }
        success := true
        actions := [OrderAction.place side entry_price qty_per_order,
                    OrderAction.place side second_price qty_per_order] }

/-- `calculate_pyramid_prices` from `src/utils/helpers.py` (lines 100-130). -/
def calculate_pyramid_prices (entry_price target_price : ℚ) (steps : ℕ) : List ℚ :=
  if steps ≤ 1 then [entry_price]
  else
    let price_difference := |target_price - entry_price|
    let step_size := price_difference / ((steps : ℚ) - 1)
    (List.range steps).map (fun i : ℕ =>
      if entry_price < target_price then round_price (entry_price + step_size * (i : ℚ))
      else round_price (entry_price - step_size * (i : ℚ)))

/-- The per-symbol entry of `PyramidEngine.pyramids`
(`src/Core/pyramid_engine.py` lines 60-71). -/
structure PyramidState where
  side : Side
  prices : List ℚ
  qtyPerStep : ℚ
  totalQuantity : ℚ
  stopLoss : Option ℚ
  currentStep : ℕ
  filledSteps : List ℕ
  orderIds : List (ℕ × String)
  averageEntry : ℚ
  totalFilled : ℚ

/-- `PyramidEngine._place_pyramid_step` (lines 82-117); `order_resp` is the
gateway reply to the single `place_order` call. -/
def place_pyramid_step (p : PyramidState) (step : ℕ) (order_resp : Option String) :
    PyramidState × Bool × List OrderAction :=
  if p.prices.length ≤ step then (p, false, [])
  else
    let price := p.prices.getD step 0
    match order_resp with
    | some oid =>
      ({ p with orderIds := p.orderIds ++ [(step, oid)] }, true,
       [OrderAction.place p.side price p.qtyPerStep])
    | none => (p, false, [OrderAction.place p.side price p.qtyPerStep])

/-- `PyramidEngine.initialize_pyramid` (lines 21-80): computes the step
prices and the quantity per step, stores the pyramid record, and places the
order for step 0 only.  The record is stored even when that order fails. -/
def initialize_pyramid (side : Side) (entry_price target_price total_quantity : ℚ)
    (stop_loss : Option ℚ) (steps : ℕ) (order_resp : Option String) :
    Option PyramidState × Bool × List OrderAction :=
  let prices := calculate_pyramid_prices entry_price target_price steps
  let qty_per_step := round_quantity (total_quantity / (steps : ℚ))
  let p0 : PyramidState :=
    { side := side
      prices := prices
      qtyPerStep := qty_per_step
      totalQuantity := total_quantity
      stopLoss := stop_loss
      currentStep := 0
      filledSteps := []
      orderIds := []
      averageEntry := 0
      totalFilled := 0 }
  let r := place_pyramid_step p0 0 order_resp
  (some r.1, r.2.1, r.2.2)

/-- A Python runtime error escaping an operation. -/
inductive PyError | zeroDivision
deriving DecidableEq

/-- Python float division, which raises `ZeroDivisionError` on a zero
divisor. -/
def pydiv (a b : ℚ) : Except PyError ℚ :=
  if b = 0 then Except.error PyError.zeroDivision else Except.ok (a / b)

/-- The dictionary returned by `PyramidEngine.get_pyramid_status`. -/
structure PyramidStatusView where
  totalSteps : ℕ
  currentStep : ℕ
  filledSteps : ℕ
  averageEntry : ℚ
  totalFilled : ℚ
  targetQuantity : ℚ
  completion : ℚ

/-- `PyramidEngine.get_pyramid_status` (lines 200-216): the `completion`
field divides by `total_quantity` with no guard, so the Python code raises
`ZeroDivisionError` when the stored pyramid has `total_quantity == 0`. -/
def get_pyramid_status (p : Option PyramidState) :
    Except PyError (Option PyramidStatusView) :=
  match p with
  | none => Except.ok none
  | some py =>
    match pydiv py.totalFilled py.totalQuantity with
    | Except.error e => Except.error e
    | Except.ok c =>
      Except.ok (some
        { totalSteps := py.prices.length
          currentStep := py.currentStep + 1
          filledSteps := py.filledSteps.length
          averageEntry := py.averageEntry
          totalFilled := py.totalFilled
          targetQuantity := py.totalQuantity
          completion := c * 100 })

/-- Hedge kind stored in `HedgeEngine.hedges` (only the full hedge is needed
by the claims; `create_partial_hedge` and `create_stop_hedge` are not
embedded). -/
inductive HedgeType | full
deriving DecidableEq

/-- The per-symbol entry of `HedgeEngine.hedges`
(`src/Core/hedge_engine.py` lines 52-60). -/
structure HedgeData where
  hedgeType : HedgeType
  mainSide : Side
  mainQuantity : ℚ
  mainEntry : ℚ
  hedgeSide : Side
  hedgeQuantity : ℚ
  isActive : Bool

/-- `HedgeEngine.is_hedged` (lines 292-294). -/
def is_hedged : Option HedgeData → Bool
  | none => false
  | some h => h.isActive

/-- `HedgeEngine.create_full_hedge` (lines 19-69); `order_ok` is the result
of the market-order gateway call. -/
def create_full_hedge (cur : Option HedgeData) (main_side : Side)
    (main_quantity main_entry : ℚ) (order_ok : Bool) : Option HedgeData × Bool :=
  if order_ok then
    (some { hedgeType := HedgeType.full
            mainSide := main_side
            mainQuantity := main_quantity
            mainEntry := main_entry
            hedgeSide := main_side.opposite
            hedgeQuantity := main_quantity
            isActive := true }, true)
  else (cur, false)

/-- `HedgeEngine.auto_hedge_on_loss` (lines 296-337); `position` is the
gateway position lookup (`size`, `avgPrice`), `order_ok` the hedge
market-order result. -/
def auto_hedge_on_loss (cur : Option HedgeData) (main_side : Side)
    (current_pnl_percent loss_threshold : ℚ) (position : Option (ℚ × ℚ))
    (order_ok : Bool) : Option HedgeData × Bool :=
  if loss_threshold < current_pnl_percent then (cur, false)
  else if is_hedged cur then (cur, false)
  else
    match position with
    | none => (cur, false)
    | some (size, avg_price) =>
      create_full_hedge cur main_side size avg_price order_ok

/-- The per-symbol entry of `ReentryEngine.reentry_candidates`
(`src/Core/reentry_engine.py` lines 48-58).  Times are rationals measured in
minutes (the cooldown comparison uses `timedelta(minutes=5)`). -/
structure ReentryCandidate where
  side : Side
  exitPrice : ℚ
  quantity : ℚ
  exitTime : ℚ
  reentryAttempts : ℕ
  lastAttempt : Option ℚ
  targetReentryPrice : ℚ
  isActive : Bool

/-- `ReentryEngine.max_reentry_attempts` (line 21). -/
def maxReentryAttempts : ℕ := 3

/-- `ReentryEngine.reentry_cooldown_minutes` (line 22). -/
def reentryCooldownMinutes : ℚ := 5

/-- `ReentryEngine._calculate_reentry_price` (lines 62-71);
`reentry_price_improvement` is 0.005. -/
def calculate_reentry_price (exit_price : ℚ) (side : Side) : ℚ :=
  match side with
  | Side.buy => round_price (exit_price * (1 - 1/200))
  | Side.sell => round_price (exit_price * (1 + 1/200))

/-- `ReentryEngine.check_reentry_opportunity` (lines 73-119): may deactivate
the candidate (attempt cap) and reports whether a re-entry should be
attempted. -/
def check_reentry_opportunity (c : ReentryCandidate) (now current_price : ℚ) :
    ReentryCandidate × Bool :=
  if c.isActive = false then (c, false)
  else if maxReentryAttempts ≤ c.reentryAttempts then
    ({ c with isActive := false }, false)
  else
    let cooldown_blocked :=
      match c.lastAttempt with
      | some t => if now - t < reentryCooldownMinutes then true else false
      | none => false
    if cooldown_blocked then (c, false)
    else
      match c.side with
      | Side.buy =>
        if current_price ≤ c.targetReentryPrice then (c, true) else (c, false)
      | Side.sell =>
        if c.targetReentryPrice ≤ current_price then (c, true) else (c, false)

/-- Arguments of the dual-limit call issued by a re-entry. -/
structure OrderReq where
  side : Side
  price : ℚ
  qty : ℚ
deriving DecidableEq

/-- `ReentryEngine.execute_reentry` (lines 121-186).  `ticker` is the
gateway ticker price (`none` models a failed `get_ticker`), `order_ok` the
result of the nested `execute_dual_limit` call; the returned `Option
OrderReq` records the dual-limit request that was issued, if any. -/
def execute_reentry (c : ReentryCandidate) (ticker : Option ℚ) (now : ℚ)
    (order_ok : Bool) : ReentryCandidate × Bool × Option OrderReq :=
  match ticker with
  | none => (c, false, none)
  | some current_price =>
    let res := check_reentry_opportunity c now current_price
    if res.2 = false then (res.1, false, none)
    else
      let c2 := { res.1 with reentryAttempts := res.1.reentryAttempts + 1
                             lastAttempt := some now }
      (c2, order_ok,
       some { side := c.side
              price := c.targetReentryPrice
              qty := c.quantity * (4/5) })

/-- A concrete tracked, active re-entry candidate (used for concrete
evaluations). -/
def reentrySample : ReentryCandidate :=
  { side := Side.buy
    exitPrice := 100
    quantity := 10
    exitTime := 0
    reentryAttempts := 0
    lastAttempt := none
    targetReentryPrice := 99
    isActive := true }

/-! Basic facts about the truncating rounders. -/

/-- `ratTrunc` is the floor for nonnegative arguments and the ceiling for
negative ones. -/
theorem ratTrunc_eq (q : ℚ) : ratTrunc q = if 0 ≤ q then ⌊q⌋ else ⌈q⌉ := by
  unfold ratTrunc
  rcases le_or_lt 0 q with h | h
  · rw [if_pos h, if_pos (Rat.num_nonneg.mpr h), Rat.floor_def]
  · rw [if_neg (not_le.mpr h), if_neg (by simpa using not_le.mpr h)]
    have h2 : ⌊-q⌋ = (-q).num / ((-q).den : ℤ) := Rat.floor_def
    rw [Rat.num_neg_eq_neg_num, Rat.den_neg_eq_den] at h2
    rw [← h2, Int.floor_neg]
    ring

/-- Truncation toward zero is monotone. -/
theorem ratTrunc_mono {x y : ℚ} (h : x ≤ y) : ratTrunc x ≤ ratTrunc y := by
  rw [ratTrunc_eq, ratTrunc_eq]
  split_ifs with h1 h2 h3
  · exact Int.floor_le_floor h
  · exact absurd (le_trans h1 h) h2
  · calc ⌈x⌉ ≤ (0 : ℤ) := Int.ceil_le.mpr (by exact_mod_cast le_of_lt (not_le.mp h1))
     _ ≤ ⌊y⌋ := Int.floor_nonneg.mpr h3
  · exact Int.ceil_le_ceil h

/-- On nonnegative arguments truncation rounds down. -/
theorem ratTrunc_le_self {x : ℚ} (h : 0 ≤ x) : (ratTrunc x : ℚ) ≤ x := by
  rw [ratTrunc_eq, if_pos h]
  exact Int.floor_le x

/-- `round_price` never rounds a nonnegative price up. -/
theorem round_price_le_self {x : ℚ} (h : 0 ≤ x) : round_price x ≤ x := by
  unfold round_price
  rw [div_le_iff₀ (by norm_num)]
  exact ratTrunc_le_self (by positivity)

/-- `round_price` is monotone. -/
theorem round_price_mono {x y : ℚ} (h : x ≤ y) : round_price x ≤ round_price y := by
  unfold round_price
  have h1 := ratTrunc_mono (mul_le_mul_of_nonneg_right h (by norm_num : (0:ℚ) ≤ 100))
  have h2 : (ratTrunc (x * 100) : ℚ) ≤ (ratTrunc (y * 100) : ℚ) := by exact_mod_cast h1
  linarith

/-- C1 counterexample: in the spec's end-to-end scenario (balance 10000,
risk 1 percent, entry 50000, stop 49000, leverage 10) the helper computes
50000, not the 5000 the claim states: the claim's own formula multiplies
the 5000 risk-based size by the leverage 10. -/
theorem c1_concrete_size_counterexample :
    calculate_position_size 10000 1 50000 49000 10 = 50000 ∧ (50000 : ℚ) ≠ 5000 := by
  constructor
  · norm_num [calculate_position_size, round_quantity, ratTrunc, abs_of_nonneg]
  · norm_num

/-- C1 (amended): with `entry ≠ stop` the risk-manager size is the spec
formula `(balance × risk/100 × entry) / |entry − stop|` scaled by the
leverage, floored to the step size and capped at the configured maximum;
with `entry = stop` the helper returns exactly 0 (and so does the manager
when the cap is nonnegative).  In the spec's concrete scenario the computed
size before the cap is 50000, not 5000. -/
theorem c1_position_size_amended (balance risk_percent entry_price stop_loss
    max_position_size : ℚ) (leverage : ℤ) :
    (entry_price ≠ stop_loss →
      risk_calculate_position_size max_position_size balance entry_price stop_loss
          risk_percent leverage =
        min (round_quantity (balance * (risk_percent / 100) * entry_price /
          |entry_price - stop_loss| * (leverage : ℚ))) max_position_size) ∧
    (entry_price = stop_loss →
      calculate_position_size balance risk_percent entry_price stop_loss leverage = 0 ∧
      (0 ≤ max_position_size →
        risk_calculate_position_size max_position_size balance entry_price stop_loss
          risk_percent leverage = 0)) ∧
    calculate_position_size 10000 1 50000 49000 10 = 50000 := by
  refine ⟨?_, ?_, ?_⟩
  · intro h
    have hd : ¬ (|entry_price - stop_loss| = 0) := by
      simpa [abs_eq_zero, sub_eq_zero] using h
    simp only [risk_calculate_position_size, calculate_position_size]
    rw [if_neg hd]
    rcases lt_or_le max_position_size
        (round_quantity (balance * (risk_percent / 100) * entry_price /
          |entry_price - stop_loss| * (leverage : ℚ))) with hlt | hle
    · rw [if_pos hlt]
      exact (min_eq_right hlt.le).symm
    · rw [if_neg (not_lt.mpr hle)]
      exact (min_eq_left hle).symm
  · intro h
    have hz : |entry_price - stop_loss| = 0 := by simp [h]
    constructor
    · simp only [calculate_position_size]
      rw [if_pos hz]
    · intro hmax
      simp only [risk_calculate_position_size, calculate_position_size]
      rw [if_pos hz, if_neg (not_lt.mpr hmax)]
  · norm_num [calculate_position_size, round_quantity, ratTrunc, abs_of_nonneg]

/-- Witness for `c1_position_size_amended` at the spec's concrete inputs. -/
theorem c1_position_size_witness :
    risk_calculate_position_size 1000 10000 50000 49000 1 10 =
      min (round_quantity (10000 * ((1:ℚ) / 100) * 50000 /
        |(50000:ℚ) - 49000| * ((10:ℤ) : ℚ))) 1000 :=
  (c1_position_size_amended 10000 1 50000 49000 1000 10).1 (by norm_num)

/-- C5 counterexample: for a SELL at entry price 1 (tick size 0.01) the
second leg price `round_price (1 × 1.002)` equals the entry price, so it is
not strictly more favorable (strictly higher) than the entry. -/
theorem c5_sell_leg_counterexample :
    secondLegPrice Side.sell 1 = 1 ∧ ¬ ((1:ℚ) < secondLegPrice Side.sell 1) := by
  have h : secondLegPrice Side.sell 1 = 1 := by
    norm_num [secondLegPrice, round_price, ratTrunc]
  exact ⟨h, by rw [h]; exact lt_irrefl 1⟩

/-- C5 (amended): the second leg is priced at `entry × (1 − 0.002)` for BUY
and `entry × (1 + 0.002)` for SELL, truncated to the tick size; for a BUY
with positive entry it is strictly lower than the entry, while for a SELL
the truncation can leave it equal to (or below) the entry.  The quantity is
split into two equal legs of `round_quantity (quantity / 2)`. -/
theorem c5_second_leg_amended (st : OrderTrack) (side : Side)
    (entry_price quantity : ℚ) (o1 o2 : String) :
    (secondLegPrice Side.buy entry_price = round_price (entry_price * (1 - 1/500))) ∧
    (secondLegPrice Side.sell entry_price = round_price (entry_price * (1 + 1/500))) ∧
    (0 < entry_price → secondLegPrice Side.buy entry_price < entry_price) ∧
    ((execute_dual_limit st side entry_price quantity (some o1) (some o2)).actions =
      [OrderAction.place side entry_price (round_quantity (quantity / 2)),
       OrderAction.place side (secondLegPrice side entry_price)
         (round_quantity (quantity / 2))]) := by
  refine ⟨rfl, rfl, ?_, rfl⟩
  intro h
  have h1 : entry_price * (1 - 1/500) < entry_price := by nlinarith
  have h2 : (0:ℚ) ≤ entry_price * (1 - 1/500) := by nlinarith
  calc secondLegPrice Side.buy entry_price
      = round_price (entry_price * (1 - 1/500)) := rfl
    _ ≤ entry_price * (1 - 1/500) := round_price_le_self h2
    _ < entry_price := h1

/-- Witness for `c5_second_leg_amended`: at entry price 100 the BUY second
leg is strictly below the entry. -/
theorem c5_second_leg_witness :
    0 < (100:ℚ) ∧ secondLegPrice Side.buy 100 < 100 :=
  ⟨by norm_num,
    (c5_second_leg_amended ⟨none, none⟩ Side.buy 100 1 "a" "b").2.2.1 (by norm_num)⟩

/-! Trailing-engine lemmas. -/

/-- `update_trailing_stop` does not change the side. -/
theorem update_trailing_side (s : TrailState) (p : ℚ) :
    (update_trailing_stop s p).1.side = s.side := by
  obtain ⟨sd, e, tp, hp, lp, cs, ta, pl⟩ := s
  cases sd <;> simp only [update_trailing_stop] <;> split_ifs <;> rfl

/-- For a BUY record the committed stop can only move up, and any returned
stop dominates the previous one. -/
theorem update_trailing_stop_buy (s : TrailState) (p : ℚ) (h : s.side = Side.buy) :
    s.currentStop ≤ (update_trailing_stop s p).1.currentStop ∧
    ∀ v, (update_trailing_stop s p).2 = some v → s.currentStop ≤ v := by
  obtain ⟨sd, e, tp, hp, lp, cs, ta, pl⟩ := s
  simp only at h
  subst h
  simp only [update_trailing_stop]
  split_ifs with h1 h2
  · refine ⟨le_of_lt h2, ?_⟩
    intro v hv
    simp only [Option.some.injEq] at hv
    exact le_of_lt (hv ▸ h2)
  · exact ⟨le_refl _, fun v hv => by simp at hv⟩
  · exact ⟨le_refl _, fun v hv => by simp at hv⟩

/-- For a SELL record the committed stop can only move down, and any
returned stop is below the previous one. -/
theorem update_trailing_stop_sell (s : TrailState) (p : ℚ) (h : s.side = Side.sell) :
    (update_trailing_stop s p).1.currentStop ≤ s.currentStop ∧
    ∀ v, (update_trailing_stop s p).2 = some v → v ≤ s.currentStop := by
  obtain ⟨sd, e, tp, hp, lp, cs, ta, pl⟩ := s
  simp only at h
  subst h
  simp only [update_trailing_stop]
  split_ifs with h1 h2
  · refine ⟨le_of_lt h2, ?_⟩
    intro v hv
    simp only [Option.some.injEq] at hv
    exact le_of_lt (hv ▸ h2)
  · exact ⟨le_refl _, fun v hv => by simp at hv⟩
  · exact ⟨le_refl _, fun v hv => by simp at hv⟩

/-- The stop trace always begins with the current committed stop. -/
theorem stop_trace_head (s : TrailState) (ps : List ℚ) :
    (stop_trace s ps).head? = some s.currentStop := by
  cases ps <;> rfl

/-- Over any BUY price sequence the committed stops form a non-decreasing
chain. -/
theorem stop_trace_chain_buy :
    ∀ (ps : List ℚ) (s : TrailState), s.side = Side.buy →
      List.Chain' (fun a b => a ≤ b) (stop_trace s ps)
  | [], _, _ => List.chain'_singleton _
  | p :: ps, s, h => by
    rw [stop_trace, List.chain'_cons']
    constructor
    · intro y hy
      rw [stop_trace_head, Option.mem_def, Option.some.injEq] at hy
      subst hy
      exact (update_trailing_stop_buy s p h).1
    · exact stop_trace_chain_buy ps _ ((update_trailing_side s p).trans h)

/-- Over any SELL price sequence the committed stops form a non-increasing
chain. -/
theorem stop_trace_chain_sell :
    ∀ (ps : List ℚ) (s : TrailState), s.side = Side.sell →
      List.Chain' (fun a b => b ≤ a) (stop_trace s ps)
  | [], _, _ => List.chain'_singleton _
  | p :: ps, s, h => by
    rw [stop_trace, List.chain'_cons']
    constructor
    · intro y hy
      rw [stop_trace_head, Option.mem_def, Option.some.injEq] at hy
      subst hy
      exact (update_trailing_stop_sell s p h).1
    · exact stop_trace_chain_sell ps _ ((update_trailing_side s p).trans h)

/-- C2: each committed trailing-stop update is at least as favorable as the
previous stop (non-decreasing for BUY, non-increasing for SELL), every
returned stop dominates the previously committed one, and over any price
sequence the committed stops form a non-decreasing chain for BUY and a
non-increasing chain for SELL. -/
theorem c2_trailing_stop_monotone (s : TrailState) (p : ℚ) (ps : List ℚ) :
    (s.side = Side.buy →
      s.currentStop ≤ (update_trailing_stop s p).1.currentStop ∧
      (∀ v, (update_trailing_stop s p).2 = some v → s.currentStop ≤ v) ∧
      List.Chain' (fun a b => a ≤ b) (stop_trace s ps)) ∧
    (s.side = Side.sell →
      (update_trailing_stop s p).1.currentStop ≤ s.currentStop ∧
      (∀ v, (update_trailing_stop s p).2 = some v → v ≤ s.currentStop) ∧
      List.Chain' (fun a b => b ≤ a) (stop_trace s ps)) := by
  constructor
  · intro h
    exact ⟨(update_trailing_stop_buy s p h).1, (update_trailing_stop_buy s p h).2,
      stop_trace_chain_buy ps s h⟩
  · intro h
    exact ⟨(update_trailing_stop_sell s p h).1, (update_trailing_stop_sell s p h).2,
      stop_trace_chain_sell ps s h⟩

/-- Witness for `c2_trailing_stop_monotone` on a concrete BUY record. -/
theorem c2_trailing_stop_monotone_witness :
    (enable_trailing Side.buy 100 2).currentStop ≤
      (update_trailing_stop (enable_trailing Side.buy 100 2) 105).1.currentStop :=
  ((c2_trailing_stop_monotone (enable_trailing Side.buy 100 2) 105 []).1 rfl).1

/-- C6: a trailing record whose stop has never ratcheted (`trailing_active`
still false) never triggers, at any price; a trigger implies the record is
active and the price crossed the committed stop adversely; and a freshly
enabled record never triggers. -/
theorem c6_trigger_requires_ratchet (t : TrailState) (price : ℚ) :
    (t.trailingActive = false → check_trailing_trigger (some t) price = false) ∧
    (check_trailing_trigger (some t) price = true →
      t.trailingActive = true ∧
      (t.side = Side.buy → price ≤ t.currentStop) ∧
      (t.side = Side.sell → t.currentStop ≤ price)) ∧
    (∀ side entry_price pct,
      check_trailing_trigger (some (enable_trailing side entry_price pct)) price
        = false) := by
  obtain ⟨sd, e, tp, hp, lp, cs, ta, pl⟩ := t
  refine ⟨?_, ?_, ?_⟩
  · intro h
    simp only at h
    subst h
    simp [check_trailing_trigger]
  · intro h
    cases ta
    · simp [check_trailing_trigger] at h
    · cases sd <;>
        simp only [check_trailing_trigger, Bool.true_eq_false, if_false] at h <;>
        split_ifs at h with hc <;>
        simp_all
  · intro side entry_price pct
    cases side <;> simp [check_trailing_trigger, enable_trailing]

/-- Witness for `c6_trigger_requires_ratchet`: a freshly enabled BUY record
does not trigger even at a far lower price. -/
theorem c6_trigger_requires_ratchet_witness :
    check_trailing_trigger (some (enable_trailing Side.buy 100 2)) 50 = false :=
  (c6_trigger_requires_ratchet (enable_trailing Side.buy 100 2) 50).1 rfl

/-- The invariant holds for a freshly enabled trailing record. -/
theorem trailInv_enable (side : Side) (entry_price pct : ℚ) :
    TrailInv side entry_price (enable_trailing side entry_price pct) :=
  ⟨rfl, rfl, fun _ => le_refl _, fun _ => le_refl _, fun h => Bool.noConfusion h⟩

/-- The invariant is preserved by `update_trailing_stop` (for a positive
entry price). -/
theorem trailInv_step (side : Side) (entry_price p : ℚ) (s : TrailState)
    (he : 0 < entry_price) (h : TrailInv side entry_price s) :
    TrailInv side entry_price (update_trailing_stop s p).1 := by
  obtain ⟨hside, hent, hb, hs, hact⟩ := h
  obtain ⟨sd, e, tp, hp, lp, cs, ta, pl⟩ := s
  simp only at hside hent hb hs hact
  subst hside
  subst hent
  cases sd
  case buy =>
    simp only [update_trailing_stop]
    split_ifs with h1 h2
    · have hlt : e < calculate_trailing_stop e p Side.buy tp :=
        lt_of_le_of_lt (hb rfl) h2
      refine ⟨rfl, rfl, fun _ => le_of_lt hlt, fun hq => Side.noConfusion hq,
        fun _ => ⟨fun _ => hlt, fun hq => Side.noConfusion hq, ?_⟩⟩
      show 0 < (calculate_trailing_stop e p Side.buy tp - e) / e * 100
      exact mul_pos (div_pos (sub_pos.mpr hlt) he) (by norm_num)
    · exact ⟨rfl, rfl, hb, hs, hact⟩
    · exact ⟨rfl, rfl, hb, hs, hact⟩
  case sell =>
    simp only [update_trailing_stop]
    split_ifs with h1 h2
    · have hlt : calculate_trailing_stop e p Side.sell tp < e :=
        lt_of_lt_of_le h2 (hs rfl)
      refine ⟨rfl, rfl, fun hq => Side.noConfusion hq, fun _ => le_of_lt hlt,
        fun _ => ⟨fun hq => Side.noConfusion hq, fun _ => hlt, ?_⟩⟩
      show 0 < (e - calculate_trailing_stop e p Side.sell tp) / e * 100
      exact mul_pos (div_pos (sub_pos.mpr hlt) he) (by norm_num)
    · exact ⟨rfl, rfl, hb, hs, hact⟩
    · exact ⟨rfl, rfl, hb, hs, hact⟩

/-- The invariant is preserved by any sequence of updates. -/
theorem trailInv_run (side : Side) (entry_price : ℚ) (he : 0 < entry_price) :
    ∀ (ps : List ℚ) (s : TrailState), TrailInv side entry_price s →
      TrailInv side entry_price (run_updates s ps)
  | [], _, h => h
  | p :: ps, s, h =>
    trailInv_run side entry_price he ps _ (trailInv_step side entry_price p s he h)

/-- C10: once a trailing position with positive entry price has activated
(the stop ratcheted at least once), the committed stop is strictly on the
profitable side of the entry — above it for BUY, below it for SELL — and
the recorded locked-in profit percentage is strictly positive. -/
theorem c10_activation_locks_profit (side : Side) (entry_price pct : ℚ)
    (ps : List ℚ) (he : 0 < entry_price)
    (hact : (run_updates (enable_trailing side entry_price pct) ps).trailingActive
      = true) :
    (side = Side.buy →
      entry_price < (run_updates (enable_trailing side entry_price pct) ps).currentStop) ∧
    (side = Side.sell →
      (run_updates (enable_trailing side entry_price pct) ps).currentStop < entry_price) ∧
    0 < (run_updates (enable_trailing side entry_price pct) ps).profitLocked := by
  have h := trailInv_run side entry_price he ps (enable_trailing side entry_price pct)
    (trailInv_enable side entry_price pct)
  exact h.2.2.2.2 hact

/-- Witness for `c10_activation_locks_profit`: a BUY at entry 100 with a 2
percent trail, after the price runs to 200, is activated with its stop
strictly above the entry. -/
theorem c10_activation_locks_profit_witness :
    0 < (100:ℚ) ∧
    (run_updates (enable_trailing Side.buy 100 2) [200]).trailingActive = true ∧
    100 < (run_updates (enable_trailing Side.buy 100 2) [200]).currentStop := by
  have hact : (run_updates (enable_trailing Side.buy 100 2) [200]).trailingActive
      = true := by
    norm_num [run_updates, update_trailing_stop, enable_trailing,
      calculate_trailing_stop, round_price, ratTrunc]
  exact ⟨by norm_num, hact,
    (c10_activation_locks_profit Side.buy 100 2 [200] (by norm_num) hact).1 rfl⟩

/-- C3: the dual-limit execution is atomic with respect to tracking.  A
failed first leg returns failure with the tracking state untouched and no
compensating cancel; a failed second leg cancels the first order and leaves
the tracking state untouched; only when both legs succeed are both order
ids recorded (in `pending_orders`, and by price in `limit_orders`). -/
theorem c3_dual_limit_compensation (st : OrderTrack) (side : Side)
    (entry_price quantity : ℚ) (r : Option String) (o1 o2 : String) :
    (execute_dual_limit st side entry_price quantity none r =
      { state := st, success := false
        actions := [OrderAction.place side entry_price
          (round_quantity (quantity / 2))] }) ∧
    (execute_dual_limit st side entry_price quantity (some o1) none =
      { state := st, success := false
        actions := [OrderAction.place side entry_price (round_quantity (quantity / 2)),
                    OrderAction.place side (secondLegPrice side entry_price)
                      (round_quantity (quantity / 2)),
                    OrderAction.cancel o1] }) ∧
    (execute_dual_limit st side entry_price quantity (some o1) (some o2) =
      { state := { pendingOrders := some [o1, o2]
                   limitOrders := some (dictInsert (dictInsert [] entry_price o1)
                     (secondLegPrice side entry_price) o2) }
        success := true
        actions := [OrderAction.place side entry_price (round_quantity (quantity / 2)),
                    OrderAction.place side (secondLegPrice side entry_price)
                      (round_quantity (quantity / 2))] }) :=
  ⟨rfl, rfl, rfl⟩

/-- C4 counterexample: a call to `execute_reentry` on a tracked, active
candidate whose ticker lookup fails returns failure with the attempt counter
NOT incremented and the timestamp untouched, refuting "incremented
regardless of the call's outcome". -/
theorem c4_failed_call_keeps_attempt_counter :
    execute_reentry reentrySample none 0 true = (reentrySample, false, none) ∧
    reentrySample.reentryAttempts = 0 ∧ reentrySample.lastAttempt = none :=
  ⟨rfl, rfl, rfl⟩

/-- When `check_reentry_opportunity` reports an opportunity it leaves the
candidate unchanged, and the candidate is active. -/
theorem check_reentry_pass (c : ReentryCandidate) (now price : ℚ)
    (h : (check_reentry_opportunity c now price).2 = true) :
    (check_reentry_opportunity c now price).1 = c ∧ c.isActive = true := by
  obtain ⟨sd, ep, q, et, ra, la, tp, ia⟩ := c
  cases ia <;> cases sd <;> rcases la with _ | t <;>
    simp only [check_reentry_opportunity] at h ⊢ <;>
    split_ifs at h ⊢ <;> simp_all

/-- C4 (amended): when the favorability check passes, `execute_reentry`
increments the attempt counter and stamps the attempt time regardless of
the order placement outcome, issues a dual-limit request for exactly 80
percent of the originally exited quantity at the target re-entry price,
and leaves the candidate tracked and active. -/
theorem c4_reentry_attempt_accounting (c : ReentryCandidate) (now price : ℚ)
    (order_ok : Bool)
    (h : (check_reentry_opportunity c now price).2 = true) :
    (execute_reentry c (some price) now order_ok).1.reentryAttempts =
        c.reentryAttempts + 1 ∧
    (execute_reentry c (some price) now order_ok).1.lastAttempt = some now ∧
    (execute_reentry c (some price) now order_ok).1.isActive = true ∧
    (execute_reentry c (some price) now order_ok).2.1 = order_ok ∧
    (execute_reentry c (some price) now order_ok).2.2 =
      some { side := c.side, price := c.targetReentryPrice,
             qty := c.quantity * (4/5) } := by
  obtain ⟨hc, hia⟩ := check_reentry_pass c now price h
  simp only [execute_reentry]
  rw [h]
  simp [Bool.true_eq_false, hc, hia]

/-- Witness for `c4_reentry_attempt_accounting` on the concrete sample
candidate at a favorable price. -/
theorem c4_reentry_attempt_accounting_witness :
    (check_reentry_opportunity reentrySample 0 99).2 = true ∧
    (execute_reentry reentrySample (some 99) 0 true).1.reentryAttempts =
      reentrySample.reentryAttempts + 1 := by
  have hch : (check_reentry_opportunity reentrySample 0 99).2 = true := by
    norm_num [check_reentry_opportunity, reentrySample, maxReentryAttempts]
  exact ⟨hch, (c4_reentry_attempt_accounting reentrySample 0 99 true hch).1⟩

/-- The hedge record created by the spec's scenario (full hedge of a BUY
position of size 1 entered at 100). -/
def sampleFullHedge : HedgeData :=
  { hedgeType := HedgeType.full
    mainSide := Side.buy
    mainQuantity := 1
    mainEntry := 100
    hedgeSide := Side.sell
    hedgeQuantity := 1
    isActive := true }

/-- C8: `auto_hedge_on_loss` attempts a full hedge exactly when the loss
threshold is breached and the symbol is not already hedged (given the
gateway returns the position and the hedge order succeeds); in all other
cases it is a no-op returning false, and a true result implies the
threshold was breached on an unhedged symbol.  The spec's scenario: at PnL
-6 percent against threshold -5 percent an unhedged symbol gets a full
hedge, and the identical repeated call is a no-op. -/
theorem c8_auto_hedge_trigger (cur : Option HedgeData) (main_side : Side)
    (pnl th : ℚ) (position : Option (ℚ × ℚ)) (order_ok : Bool) :
    (th < pnl → auto_hedge_on_loss cur main_side pnl th position order_ok
      = (cur, false)) ∧
    (is_hedged cur = true → auto_hedge_on_loss cur main_side pnl th position order_ok
      = (cur, false)) ∧
    (position = none → auto_hedge_on_loss cur main_side pnl th position order_ok
      = (cur, false)) ∧
    (∀ size avg_price, pnl ≤ th → is_hedged cur = false →
      position = some (size, avg_price) → order_ok = true →
      auto_hedge_on_loss cur main_side pnl th position order_ok =
        (some { hedgeType := HedgeType.full
                mainSide := main_side
                mainQuantity := size
                mainEntry := avg_price
                hedgeSide := main_side.opposite
                hedgeQuantity := size
                isActive := true }, true)) ∧
    ((auto_hedge_on_loss cur main_side pnl th position order_ok).2 = true →
      pnl ≤ th ∧ is_hedged cur = false) ∧
    (auto_hedge_on_loss none Side.buy (-6) (-5) (some (1, 100)) true =
      (some sampleFullHedge, true)) ∧
    (auto_hedge_on_loss (some sampleFullHedge) Side.buy (-6) (-5) (some (1, 100)) true =
      (some sampleFullHedge, false)) := by
  refine ⟨?_, ?_, ?_, ?_, ?_, ?_, ?_⟩
  · intro h
    simp only [auto_hedge_on_loss]
    rw [if_pos h]
  · intro h
    simp only [auto_hedge_on_loss]
    by_cases h1 : th < pnl
    · rw [if_pos h1]
    · rw [if_neg h1, if_pos h]
  · intro h
    subst h
    simp only [auto_hedge_on_loss]
    split_ifs <;> rfl
  · intro size avg_price h1 h2 h3 h4
    subst h3
    subst h4
    simp only [auto_hedge_on_loss]
    rw [if_neg (not_lt.mpr h1), if_neg (by rw [h2]; exact Bool.false_ne_true)]
    simp [create_full_hedge]
  · intro h
    constructor
    · by_contra h1
      simp only [auto_hedge_on_loss] at h
      rw [if_pos (not_le.mp h1)] at h
      exact absurd h (by simp)
    · by_cases h2 : is_hedged cur = true
      · exfalso
        simp only [auto_hedge_on_loss] at h
        by_cases h1 : th < pnl
        · rw [if_pos h1] at h
          exact absurd h (by simp)
        · rw [if_neg h1, if_pos h2] at h
          exact absurd h (by simp)
      · exact Bool.eq_false_iff.mpr h2
  · simp only [auto_hedge_on_loss, is_hedged]
    rw [if_neg (by norm_num : ¬ ((-5:ℚ) < -6)), if_neg Bool.false_ne_true]
    simp [create_full_hedge, sampleFullHedge, Side.opposite]
  · simp only [auto_hedge_on_loss, is_hedged, sampleFullHedge]
    rw [if_neg (by norm_num : ¬ ((-5:ℚ) < -6))]
    simp

/-- Witness for `c8_auto_hedge_trigger`: with PnL above the threshold the
call is a no-op. -/
theorem c8_auto_hedge_trigger_witness :
    auto_hedge_on_loss none Side.buy 0 (-5) none true = (none, false) :=
  (c8_auto_hedge_trigger none Side.buy 0 (-5) none true).1 (by norm_num)

/-- When the step guard `steps <= 1` does not fire, the pyramid has exactly
`steps` price levels. -/
theorem pyramid_prices_length (entry_price target_price : ℚ) (steps : ℕ)
    (h : ¬ steps ≤ 1) : (calculate_pyramid_prices entry_price target_price steps).length
      = steps := by
  simp only [calculate_pyramid_prices]
  rw [if_neg h]
  simp only [List.length_map, List.length_range]

/-- C9 (code bug): after a pyramid is stored with `total_quantity = 0` (the
record is stored even though the initial order failed), the public
`get_pyramid_status` divides by `total_quantity` with no guard and raises
`ZeroDivisionError` past its boundary, contradicting the spec's
no-exception guarantee. -/
theorem c9_pyramid_status_zero_division :
    get_pyramid_status (initialize_pyramid Side.buy 100 200 0 none 7 none).1 =
      Except.error PyError.zeroDivision := by
  have hg : ¬ ((calculate_pyramid_prices 100 200 7).length ≤ 0) := by
    rw [pyramid_prices_length 100 200 7 (by norm_num)]
    norm_num
  simp only [initialize_pyramid, place_pyramid_step]
  rw [if_neg hg]
  simp [get_pyramid_status, pydiv]

/-- C7 counterexample: with an entry price off the tick grid
(100.005 = 20001/200) and target 200 in 2 steps, the computed prices are
[100, 200]: the entry endpoint is not included (it is truncated to the
tick), refuting "evenly spaced between entry and target inclusive of both
endpoints". -/
theorem c7_endpoint_counterexample :
    calculate_pyramid_prices (20001/200) 200 2 = [100, 200] ∧
    ((20001 : ℚ)/200) ≠ 100 ∧ ((20001 : ℚ)/200) ≠ 200 := by
  refine ⟨?_, by norm_num, by norm_num⟩
  norm_num [calculate_pyramid_prices, round_price, ratTrunc, abs_of_nonneg,
    List.range_succ]

/-- C7 (amended): for `steps ≥ 2` the pyramid has exactly `steps` prices,
the i-th being the evenly spaced point `entry ± i·|target−entry|/(steps−1)`
truncated to the tick size (so the endpoints are included only up to tick
truncation); the list is non-strictly ascending when `target > entry` and
non-strictly descending otherwise; initialization places exactly one limit
order, for step 0, with quantity `total/steps` floored to the step size.
The spec's two concrete examples hold as stated. -/
theorem c7_pyramid_amended (entry_price target_price total_quantity : ℚ)
    (side : Side) (stop_loss : Option ℚ) (order_resp : Option String)
    (steps : ℕ) (hsteps : 2 ≤ steps) :
    (calculate_pyramid_prices entry_price target_price steps).length = steps ∧
    (∀ i, i < steps →
      (calculate_pyramid_prices entry_price target_price steps).get? i =
        some (if entry_price < target_price then
            round_price (entry_price +
              |target_price - entry_price| / ((steps : ℚ) - 1) * (i : ℚ))
          else
            round_price (entry_price -
              |target_price - entry_price| / ((steps : ℚ) - 1) * (i : ℚ)))) ∧
    (entry_price < target_price →
      List.Chain' (fun a b => a ≤ b)
        (calculate_pyramid_prices entry_price target_price steps)) ∧
    (¬ entry_price < target_price →
      List.Chain' (fun a b => b ≤ a)
        (calculate_pyramid_prices entry_price target_price steps)) ∧
    ((initialize_pyramid side entry_price target_price total_quantity stop_loss steps
        order_resp).2.2 =
      [OrderAction.place side
        ((calculate_pyramid_prices entry_price target_price steps).getD 0 0)
        (round_quantity (total_quantity / (steps : ℚ)))]) ∧
    calculate_pyramid_prices 100 200 5 = [100, 125, 150, 175, 200] ∧
    calculate_pyramid_prices 200 100 3 = [200, 150, 100] := by
  have hn1 : ¬ steps ≤ 1 := by omega
  have hdef : calculate_pyramid_prices entry_price target_price steps =
      (List.range steps).map (fun i : ℕ =>
        if entry_price < target_price then
          round_price (entry_price +
            |target_price - entry_price| / ((steps : ℚ) - 1) * (i : ℚ))
        else
          round_price (entry_price -
            |target_price - entry_price| / ((steps : ℚ) - 1) * (i : ℚ))) := by
    simp only [calculate_pyramid_prices]
    rw [if_neg hn1]
  have hs_nonneg : 0 ≤ |target_price - entry_price| / ((steps : ℚ) - 1) := by
    apply div_nonneg (abs_nonneg _)
    have h2 : (2:ℚ) ≤ (steps:ℚ) := by exact_mod_cast hsteps
    linarith
  refine ⟨pyramid_prices_length _ _ _ hn1, ?_, ?_, ?_, ?_, ?_, ?_⟩
  · intro i hi
    rw [hdef, List.get?_map, List.get?_range hi]
    rfl
  · intro hlt
    rw [hdef, List.chain'_map]
    obtain ⟨k, rfl⟩ : ∃ k, steps = k + 1 := ⟨steps - 1, by omega⟩
    refine (List.chain'_range_succ _ k).mpr ?_
    intro m hm
    simp only [if_pos hlt]
    apply round_price_mono
    have hc : ((m : ℕ) : ℚ) ≤ ((m.succ : ℕ) : ℚ) := by push_cast; linarith
    exact add_le_add_left (mul_le_mul_of_nonneg_left hc hs_nonneg) entry_price
  · intro hnlt
    rw [hdef, List.chain'_map]
    obtain ⟨k, rfl⟩ : ∃ k, steps = k + 1 := ⟨steps - 1, by omega⟩
    refine (List.chain'_range_succ _ k).mpr ?_
    intro m hm
    simp only [if_neg hnlt]
    apply round_price_mono
    have hc : ((m : ℕ) : ℚ) ≤ ((m.succ : ℕ) : ℚ) := by push_cast; linarith
    exact sub_le_sub_left (mul_le_mul_of_nonneg_left hc hs_nonneg) entry_price
  · have hg : ¬ ((calculate_pyramid_prices entry_price target_price steps).length
        ≤ 0) := by
      rw [pyramid_prices_length _ _ _ hn1]
      omega
    simp only [initialize_pyramid, place_pyramid_step]
    rw [if_neg hg]
    cases order_resp <;> rfl
  · norm_num [calculate_pyramid_prices, round_price, ratTrunc, abs_of_nonneg,
      List.range_succ]
  · norm_num [calculate_pyramid_prices, round_price, ratTrunc, abs_of_nonneg,
      List.range_succ, abs_sub_comm]

/-- Witness for `c7_pyramid_amended` at the spec's first concrete example. -/
theorem c7_pyramid_amended_witness :
    (2 : ℕ) ≤ 5 ∧ (calculate_pyramid_prices 100 200 5).length = 5 :=
  ⟨by norm_num,
    (c7_pyramid_amended 100 200 1 Side.buy none none 5 (by norm_num)).1⟩
